import Mathlib

/-!
Shallow embedding of the `StravaChallenge` Solidity contract
(revision with `uint256` challenge ids) and of the oracle finalization
endpoint (`oracle/src/routes/oracle.js`), together with theorems
settling the specification claims about them.

Conventions of the embedding:
* addresses and `uint256` values are `Nat`; Solidity 0.8 checked
  arithmetic is made explicit where an overflow or underflow could
  occur (a failing check reverts, i.e. returns `.error`);
* a reverting call is an `Except.error` carrying the revert string;
* ECDSA signatures are idealized as unforgeable: a signature carries
  the signer and the exact message it was produced over, and
  `recover` succeeds exactly on that message;
* `block.timestamp` / `msg.sender` / `msg.value` are explicit
  arguments (`now`, `sender`, `value`).
-/

namespace StravaChallenge

abbrev Address := Nat

/-- The `ChallengeState` enum of the contract. -/
inductive ChallengeState where
  | PENDING
  | ACTIVE
  | GRACE_PERIOD
  | FINALIZED
  | CANCELLED
  | COMPLETED
deriving DecidableEq, Repr

/-- The `Challenge` struct of the contract.  `finalDataHash` (a `bytes32`)
is modelled as a `Nat`. -/
structure Challenge where
  id : Nat
  creator : Address
  startTime : Nat
  endTime : Nat
  stakeAmount : Nat
  totalStaked : Nat
  state : ChallengeState
  winner : Address
  finalDataHash : Nat
  participantCount : Nat
deriving DecidableEq, Repr

/-- The `Participant` struct of the contract. -/
structure Participant where
  userAddress : Address
  stravaUserId : String
  stake : Nat
  hasJoined : Bool
deriving DecidableEq, Repr

/-- The all-zero `Participant`, the default value of the Solidity mapping. -/
def Participant.empty : Participant :=
  { userAddress := 0, stravaUserId := "", stake := 0, hasJoined := false }

/-- `GRACE_PERIOD = 7 days`, in seconds (the oracle service uses the
same length as `GRACE_PERIOD_DAYS * 24 * 60 * 60`). -/
def GRACE_PERIOD : Nat := 7 * 24 * 60 * 60

/-- `EMERGENCY_PERIOD = 14 days`, in seconds. -/
def EMERGENCY_PERIOD : Nat := 14 * 24 * 60 * 60

/-- `30 days`, the maximum attestation age in `claimPrizeWithSignature`. -/
def THIRTY_DAYS : Nat := 30 * 24 * 60 * 60

/-- `2^256`, the bound of the EVM word; checked arithmetic reverts past it. -/
def UINT256_BOUND : Nat := 2 ^ 256

/-- The storage of the contract: the `challenges` array, the
`participants` and `allowedParticipantsList` mappings (total functions
with Solidity's zero-value defaults), and the `oracle` address. -/
structure ContractState where
  challenges : List Challenge
  participants : Nat → Address → Participant
  allowed : Nat → List Address
  oracle : Address

/-- The state right after the constructor ran: no challenges, all
mappings at their default values. -/
def initState (oracle : Address) : ContractState :=
  { challenges := []
    participants := fun _ _ => Participant.empty
    allowed := fun _ => []
    oracle := oracle }

/-- Point update of the `participants` mapping. -/
def updateParticipant (f : Nat → Address → Participant) (cid : Nat)
    (a : Address) (p : Participant) : Nat → Address → Participant :=
  fun c b => if c = cid ∧ b = a then p else f c b

/-- Overwrite the stored record of challenge `cid`. -/
def setChallenge (s : ContractState) (cid : Nat) (c : Challenge) : ContractState :=
  { s with challenges := s.challenges.set cid c }

/-- Overwrite the stored record of challenge `cid` and the participant
record of `a` in it, as the two withdrawal operations do. -/
def setChallengeAndParticipant (s : ContractState) (cid : Nat) (c : Challenge)
    (a : Address) (p : Participant) : ContractState :=
  { s with challenges := s.challenges.set cid c,
           participants := updateParticipant s.participants cid a p }

/-- Bytes of a string (the `string` pieces of `abi.encodePacked`). -/
def strBytes (s : String) : List Nat :=
  s.toList.map Char.toNat

/-- Big-endian bytes of a `uint256` (or `bytes32`) in `abi.encodePacked`. -/
def u256Bytes (n : Nat) : List Nat :=
  (List.range 32).map (fun i => n / 256 ^ (31 - i) % 256)

/-- Big-endian bytes of an `address` in `abi.encodePacked`. -/
def addrBytes (a : Address) : List Nat :=
  (List.range 20).map (fun i => a / 256 ^ (19 - i) % 256)

/-- The byte string
`abi.encodePacked("FINALIZE_CHALLENGE_", challengeId, winner, dataHash, timestamp)`
that `claimPrizeWithSignature` hashes and verifies the oracle signature
against (the oracle's `signFinalization` builds the same bytes). -/
def finalizeMessage (challengeId : Nat) (winner : Address)
    (dataHash timestamp : Nat) : List Nat :=
  strBytes "FINALIZE_CHALLENGE_" ++ u256Bytes challengeId ++
    addrBytes winner ++ u256Bytes dataHash ++ u256Bytes timestamp

/-- The byte string `abi.encodePacked("CANCEL_CHALLENGE_", challengeId)`
that `cancelChallengeByConsent` verifies participant signatures against. -/
def cancelMessage (challengeId : Nat) : List Nat :=
  strBytes "CANCEL_CHALLENGE_" ++ u256Bytes challengeId

/-- An ECDSA signature, idealized: it records who signed and the exact
byte string that was signed. -/
structure Sig where
  signer : Address
  message : List Nat
deriving DecidableEq, Repr

/-- Idealized `ECDSA.recover` on a message: it returns the signer when
the signature was made over exactly this message and fails otherwise
(OpenZeppelin's `recover` reverts on an invalid signature). -/
def recover (m : List Nat) (sig : Sig) : Option Address :=
  if sig.message = m then some sig.signer else none

/-- The state-derivation at the heart of `getEffectiveState`, as the
contract computes it from the stored challenge, the whitelist length
(`requiredParticipants`) and `block.timestamp` (`now`). -/
def effectiveState (c : Challenge) (requiredParticipants now : Nat) :
    ChallengeState :=
  if c.state = ChallengeState.COMPLETED ∨ c.state = ChallengeState.FINALIZED ∨
      c.state = ChallengeState.CANCELLED then
    c.state
  else if c.state = ChallengeState.PENDING ∧ now ≥ c.startTime ∧
      c.participantCount < requiredParticipants then
    ChallengeState.CANCELLED
  else if now ≥ c.endTime then
    ChallengeState.GRACE_PERIOD
  else if now ≥ c.startTime then
    ChallengeState.ACTIVE
  else
    ChallengeState.PENDING

/-- The public `getEffectiveState(challengeId)` view, with its
existence `require`. -/
def getEffectiveState (s : ContractState) (now cid : Nat) :
    Except String ChallengeState :=
  match s.challenges[cid]? with
  | none => .error "Challenge does not exist"
  | some c => .ok (effectiveState c (s.allowed cid).length now)

/-- The five-step effective-state derivation exactly as the
specification words it, for comparison with the contract's
`effectiveState`:
1. terminal stored states (COMPLETED, FINALIZED, CANCELLED) are
   returned as stored;
2. else PENDING stored, `now ≥ start`, and under-subscription give
   CANCELLED;
3. else `now ≥ end` gives GRACE_PERIOD;
4. else `now ≥ start` gives ACTIVE;
5. else PENDING. -/
def effectiveStateSpec (c : Challenge) (whitelistSize now : Nat) :
    ChallengeState :=
  match c.state with
  | ChallengeState.COMPLETED => c.state
  | ChallengeState.FINALIZED => c.state
  | ChallengeState.CANCELLED => c.state
  | stored =>
    if stored = ChallengeState.PENDING ∧ c.startTime ≤ now ∧
        c.participantCount < whitelistSize then
      ChallengeState.CANCELLED
    else if c.endTime ≤ now then
      ChallengeState.GRACE_PERIOD
    else if c.startTime ≤ now then
      ChallengeState.ACTIVE
    else
      ChallengeState.PENDING

/-- Solidity's `require(P, msg)`: continue when `P` holds, revert with
`msg` otherwise. -/
def require (P : Prop) [Decidable P] (msg : String) : Except String Unit :=
  if P then .ok () else .error msg

/-- Reading `challenges[challengeId]` under the
`require(challengeId < challenges.length)` existence check. -/
def getChallenge (s : ContractState) (cid : Nat) : Except String Challenge :=
  match s.challenges[cid]? with
  | some c => .ok c
  | none => .error "Challenge does not exist"

/-- `ECDSA.recover`, which reverts on an invalid signature. -/
def recoverE (m : List Nat) (sig : Sig) : Except String Address :=
  match recover m sig with
  | some a => .ok a
  | none => .error "ECDSA: invalid signature"

/-- The whitelist-building loop of `createChallenge`: starting from the
list already stored (the creator), push each further address after
checking it is non-zero, is not the creator, and does not repeat an
already-stored address. -/
def buildWhitelist (sender : Address) (acc : List Address) :
    List Address → Except String (List Address)
  | [] => .ok acc
  | a :: rest => do
    require (a ≠ 0) "Invalid address in whitelist"
    require (a ≠ sender) "Creator is automatically included"
    require (acc.contains a = false) "Duplicate address in whitelist"
    buildWhitelist sender (acc ++ [a]) rest

/-- `createChallenge(startTime, endTime, stakeAmount, allowedAddresses)`.
Returns the updated storage and the new challenge id. -/
def createChallenge (s : ContractState) (sender now : Nat)
    (startTime endTime stakeAmount : Nat) (allowedAddresses : List Address) :
    Except String (ContractState × Nat) := do
  require (startTime > now) "Start time must be in future"
  require (endTime > startTime) "End time must be after start"
  require (stakeAmount > 0) "Stake must be positive"
  require (allowedAddresses.length ≥ 1) "Need at least 1 other participant"
  let wl ← buildWhitelist sender [sender] allowedAddresses
  let challengeId := s.challenges.length
  let c : Challenge :=
    { id := challengeId, creator := sender, startTime := startTime
      endTime := endTime, stakeAmount := stakeAmount, totalStaked := 0
      state := ChallengeState.PENDING, winner := 0, finalDataHash := 0
      participantCount := 0 }
  pure ({ s with
           challenges := s.challenges ++ [c]
           allowed := fun i => if i = challengeId then wl else s.allowed i },
        challengeId)

/-- `isAllowedParticipant(challengeId, addr)` without its (in context
redundant) existence `require`: whitelist membership by linear scan. -/
def isAllowedParticipant (s : ContractState) (cid : Nat) (addr : Address) : Bool :=
  (s.allowed cid).contains addr

/-- `joinChallenge(challengeId, stravaUserId)` with `msg.value = value`. -/
def joinChallenge (s : ContractState) (sender now value cid : Nat)
    (stravaUserId : String) : Except String ContractState := do
  let c ← getChallenge s cid
  require (isAllowedParticipant s cid sender = true) "Not on whitelist"
  require (effectiveState c (s.allowed cid).length now = ChallengeState.PENDING)
    "Challenge not accepting participants"
  require (now < c.startTime) "Registration closed"
  require (value = c.stakeAmount) "Incorrect stake amount"
  require ((s.participants cid sender).hasJoined = false) "Already joined"
  require (stravaUserId.length > 0) "Invalid Strava ID"
  require (c.totalStaked + value < UINT256_BOUND) "Arithmetic overflow"
  let p : Participant :=
    { userAddress := sender, stravaUserId := stravaUserId
      stake := value, hasJoined := true }
  pure { s with
          participants := updateParticipant s.participants cid sender p
          challenges := s.challenges.set cid
            { c with totalStaked := c.totalStaked + value
                     participantCount := c.participantCount + 1 } }

/-- `claimPrizeWithSignature(challengeId, winner, dataHash, timestamp,
oracleSignature)`.  Returns the updated storage and the list of value
transfers the call makes (recipient, amount). -/
def claimPrizeWithSignature (s : ContractState) (sender now cid : Nat)
    (winner : Address) (dataHash timestamp : Nat) (oracleSignature : Sig) :
    Except String (ContractState × List (Address × Nat)) := do
  let c ← getChallenge s cid
  require (effectiveState c (s.allowed cid).length now = ChallengeState.GRACE_PERIOD)
    "Challenge not in grace period"
  require (now ≥ c.endTime) "Challenge not ended"
  require (now < c.endTime + EMERGENCY_PERIOD) "Emergency period active"
  require (sender = winner) "Caller must be winner"
  require ((s.participants cid winner).hasJoined = true) "Winner not a participant"
  require (dataHash ≠ 0) "Invalid data hash"
  require (timestamp ≤ now) "Signature from future"
  require (now - timestamp < THIRTY_DAYS) "Signature too old"
  let signer ← recoverE (finalizeMessage cid winner dataHash timestamp) oracleSignature
  require (signer = s.oracle) "Invalid oracle signature"
  let prize := c.totalStaked
  let c1 := { c with state := ChallengeState.COMPLETED, winner := winner,
                     finalDataHash := dataHash, totalStaked := 0 }
  pure ({ s with challenges := s.challenges.set cid c1 },
        [(winner, prize)])

/-- The signature-verification loop of `cancelChallengeByConsent`:
each signature must recover (over `m`) to a joined participant not
already seen among the previously collected signers. -/
def checkSigs (s : ContractState) (cid : Nat) (m : List Nat)
    (seen : List Address) : List Sig → Except String Unit
  | [] => .ok ()
  | sig :: rest => do
    let signer ← recoverE m sig
    require ((s.participants cid signer).hasJoined = true) "Invalid signature"
    require (seen.contains signer = false) "Duplicate signature"
    checkSigs s cid m (seen ++ [signer]) rest

/-- `cancelChallengeByConsent(challengeId, signatures)`.  Note the
caller (`sender`) is never consulted. -/
def cancelChallengeByConsent (s : ContractState) (sender now cid : Nat)
    (signatures : List Sig) : Except String ContractState := do
  let c ← getChallenge s cid
  let eff := effectiveState c (s.allowed cid).length now
  require (eff = ChallengeState.PENDING ∨ eff = ChallengeState.ACTIVE ∨
           eff = ChallengeState.GRACE_PERIOD) "Challenge cannot be cancelled"
  require (signatures.length = c.participantCount) "Need all participant signatures"
  checkSigs s cid (cancelMessage cid) [] signatures
  let c1 := { c with state := ChallengeState.CANCELLED }
  pure { s with challenges := s.challenges.set cid c1 }

/-- The lazy materialization step of `withdrawFromCancelled`: write the
stored state to CANCELLED when it is not already stored. -/
def materializeCancelled (c : Challenge) : Challenge :=
  if c.state ≠ ChallengeState.CANCELLED
  then { c with state := ChallengeState.CANCELLED } else c

/-- `withdrawFromCancelled(challengeId)`.  Returns the updated storage
and the transfers made. -/
def withdrawFromCancelled (s : ContractState) (sender now cid : Nat) :
    Except String (ContractState × List (Address × Nat)) := do
  let c ← getChallenge s cid
  let p := s.participants cid sender
  require (effectiveState c (s.allowed cid).length now = ChallengeState.CANCELLED)
    "Challenge not cancelled"
  require (p.stake > 0) "No stake to withdraw"
  let c1 := materializeCancelled c
  require (p.stake ≤ c1.totalStaked) "Arithmetic underflow"
  let newParts := updateParticipant s.participants cid sender { p with stake := 0 }
  let newChals := s.challenges.set cid { c1 with totalStaked := c1.totalStaked - p.stake }
  pure ({ s with participants := newParts, challenges := newChals },
        [(sender, p.stake)])

/-- `emergencyWithdraw(challengeId)`.  Returns the updated storage and
the transfers made. -/
def emergencyWithdraw (s : ContractState) (sender now cid : Nat) :
    Except String (ContractState × List (Address × Nat)) := do
  let c ← getChallenge s cid
  let p := s.participants cid sender
  let eff := effectiveState c (s.allowed cid).length now
  require (eff ≠ ChallengeState.FINALIZED ∧ eff ≠ ChallengeState.COMPLETED ∧
           eff ≠ ChallengeState.CANCELLED) "Challenge already resolved"
  require (now ≥ c.endTime + EMERGENCY_PERIOD) "Emergency period not reached"
  require (p.stake > 0) "No stake to withdraw"
  require (p.stake ≤ c.totalStaked) "Arithmetic underflow"
  let newParts := updateParticipant s.participants cid sender { p with stake := 0 }
  let newChals := s.challenges.set cid { c with totalStaked := c.totalStaked - p.stake }
  pure ({ s with participants := newParts, challenges := newChals },
        [(sender, p.stake)])

/-- One external call to the contract, with its caller and timestamp:
the six operations of the invariant claim. -/
inductive Op where
  | create (sender now startTime endTime stakeAmount : Nat)
      (allowedAddresses : List Address)
  | join (sender now value cid : Nat) (stravaUserId : String)
  | claim (sender now cid : Nat) (winner : Address) (dataHash timestamp : Nat)
      (sig : Sig)
  | cancel (sender now cid : Nat) (sigs : List Sig)
  | withdrawCancelled (sender now cid : Nat)
  | emergency (sender now cid : Nat)

/-- Execute one call with EVM revert semantics: a failing call leaves
the storage unchanged. -/
def execOp (s : ContractState) : Op → ContractState
  | Op.create sender now st et sa aa =>
    match createChallenge s sender now st et sa aa with
    | .ok (s1, _) => s1
    | .error _ => s
  | Op.join sender now value cid uid =>
    match joinChallenge s sender now value cid uid with
    | .ok s1 => s1
    | .error _ => s
  | Op.claim sender now cid w dh ts sig =>
    match claimPrizeWithSignature s sender now cid w dh ts sig with
    | .ok (s1, _) => s1
    | .error _ => s
  | Op.cancel sender now cid sigs =>
    match cancelChallengeByConsent s sender now cid sigs with
    | .ok s1 => s1
    | .error _ => s
  | Op.withdrawCancelled sender now cid =>
    match withdrawFromCancelled s sender now cid with
    | .ok (s1, _) => s1
    | .error _ => s
  | Op.emergency sender now cid =>
    match emergencyWithdraw s sender now cid with
    | .ok (s1, _) => s1
    | .error _ => s

/-- Execute a sequence of calls from a starting state. -/
def execOps (s : ContractState) (ops : List Op) : ContractState :=
  ops.foldl execOp s

/-- The sum of the stored `stake` fields over a challenge's whitelist
(every address that can ever hold stake is on the whitelist). -/
def stakeSum (s : ContractState) (cid : Nat) : Nat :=
  ((s.allowed cid).map (fun a => (s.participants cid a).stake)).sum

/-- The sum of the live participant stakes of a challenge.  A recorded
stake is live until it is withdrawn (the stake field is zeroed) or the
pooled stakes are paid out as the prize: `claimPrizeWithSignature`
pays the whole pool to the winner and marks the challenge COMPLETED
without zeroing the individual stake fields, so a COMPLETED challenge
has no live stake. -/
def liveStakeSum (s : ContractState) (cid : Nat) : Nat :=
  match s.challenges[cid]? with
  | some c => if c.state = ChallengeState.COMPLETED then 0 else stakeSum s cid
  | none => 0

/-- The bookkeeping invariant of the storage:
1. every existing challenge's whitelist has no duplicates;
2. an address off the whitelist holds no stake;
3. a participant that never joined holds no stake;
4. storage slots of not-yet-created challenges are at defaults;
5. every challenge's `totalStaked` is 0 when COMPLETED (pool paid
   out), and otherwise the sum of its participants' stake fields. -/
def Wf (s : ContractState) : Prop :=
  (∀ cid, cid < s.challenges.length → (s.allowed cid).Nodup) ∧
  (∀ cid a, a ∉ s.allowed cid → (s.participants cid a).stake = 0) ∧
  (∀ cid a, (s.participants cid a).hasJoined = false →
    (s.participants cid a).stake = 0) ∧
  (∀ cid, s.challenges.length ≤ cid →
    s.allowed cid = [] ∧ ∀ a, s.participants cid a = Participant.empty) ∧
  (∀ cid c, s.challenges[cid]? = some c →
    c.totalStaked =
      if c.state = ChallengeState.COMPLETED then 0 else stakeSum s cid)

/-- A concrete run used by several witnesses: account 1 creates a
challenge (start 100, end 200, stake 5) whitelisting account 2, and
both accounts join before the start.  The oracle key is address 9. -/
def demoOps : List Op :=
  [Op.create 1 0 100 200 5 [2],
   Op.join 1 10 5 0 "strava-1",
   Op.join 2 20 5 0 "strava-2"]

/-- The storage after `demoOps`: one challenge, two joined
participants, 10 staked. -/
def demoState : ContractState :=
  execOps (initState 9) demoOps

/-- An oracle signature naming account 1 the winner of challenge 0 with
data hash 7, signed at time 250. -/
def demoSig : Sig :=
  { signer := 9, message := finalizeMessage 0 1 7 250 }

/-- The storage after account 1 additionally claims the prize at time
250 with `demoSig`. -/
def demoClaimed : ContractState :=
  execOps (initState 9) (demoOps ++ [Op.claim 1 250 0 1 7 250 demoSig])

/-- The storage after only the creation step of `demoOps` (no joins). -/
def demoCreated : ContractState :=
  execOps (initState 9) [Op.create 1 0 100 200 5 [2]]

/-- A run where only account 1 joins, so the challenge is
under-subscribed once its start time passes. -/
def demoUnder : ContractState :=
  execOps (initState 9) [Op.create 1 0 100 200 5 [2], Op.join 1 10 5 0 "strava-1"]

/-- One row of the oracle database's `participants` table for a
challenge: the wallet address and the confirmed flag. -/
structure OracleParticipant where
  walletAddress : Address
  confirmed : Bool
deriving DecidableEq, Repr

/-- The latest mileage snapshot of one participant, as selected by the
endpoint's query (wallet, Strava user id, total miles).  The numeric
mileage column is modelled as a rational. -/
structure MileageRow where
  walletAddress : Address
  stravaUserId : String
  totalMiles : ℚ
deriving DecidableEq, Repr

/-- The possible responses of `GET /oracle/challenge/:id/finalization`
for an existing challenge: the structured refusals, or a signed
finalization (winner row, whether the reason was all-confirmed, and
the signing timestamp; `signFinalization` then signs the
`finalizeMessage` bytes naming the winner's wallet). -/
inductive FinalizationResult where
  | notEnded (timeRemaining : Nat)
  | noParticipants
  | cannotFinalizeYet (confirmedCount totalParticipants : Nat)
  | noMileageData
  | signed (winner : MileageRow) (allConfirmed : Bool) (timestamp : Nat)
deriving DecidableEq, Repr

/-- Number of participants whose `confirmed` flag is set. -/
def confirmedCount (parts : List OracleParticipant) : Nat :=
  (parts.filter (fun p => p.confirmed)).length

/-- The SQL join of the latest mileage snapshots with the participants
table on the wallet address: only rows of joined participants remain. -/
def joinedRows (parts : List OracleParticipant) (mileage : List MileageRow) :
    List MileageRow :=
  mileage.filter (fun m => parts.any (fun p => p.walletAddress == m.walletAddress))

/-- The endpoint's `ORDER BY total_miles DESC` followed by taking
`rows[0]`: the first row attaining the maximal mileage (one valid
result of the unstable SQL sort). -/
def selectWinnerRow : List MileageRow → Option MileageRow
  | [] => none
  | r :: rest =>
    some (rest.foldl (fun best x => if best.totalMiles < x.totalMiles then x else best) r)

/-- The decision logic of `GET /oracle/challenge/:id/finalization` for
a challenge found in the database, with the current time `now`: refuse
while the challenge has not ended; refuse when no participants are
recorded; refuse while the grace period has not expired and not all
participants confirmed; refuse when no mileage snapshot exists;
otherwise sign, naming the maximal-mileage joined row the winner. -/
def oracleFinalization (endTime now : Nat) (parts : List OracleParticipant)
    (mileage : List MileageRow) : FinalizationResult :=
  if now < endTime then
    FinalizationResult.notEnded (endTime - now)
  else if parts.length = 0 then
    FinalizationResult.noParticipants
  else
    let total := parts.length
    let confirmed := confirmedCount parts
    let allConfirmed := confirmed = total
    let gracePeriodExpired := now - endTime ≥ GRACE_PERIOD
    if ¬ (gracePeriodExpired ∨ allConfirmed) then
      FinalizationResult.cannotFinalizeYet confirmed total
    else
      match selectWinnerRow (joinedRows parts mileage) with
      | none => FinalizationResult.noMileageData
      | some w => FinalizationResult.signed w (decide allConfirmed) now

/-- Oracle-side demo data: both demo participants confirmed. -/
def demoOracleParts : List OracleParticipant :=
  [{ walletAddress := 1, confirmed := true }, { walletAddress := 2, confirmed := true }]

/-- Oracle-side demo data: account 2 recorded the most miles. -/
def demoMileage : List MileageRow :=
  [{ walletAddress := 1, stravaUserId := "strava-1", totalMiles := 3 },
   { walletAddress := 2, stravaUserId := "strava-2", totalMiles := 7 }]

/-! ## Basic lemmas about the monadic plumbing -/

@[simp] lemma ok_bind {α β : Type} (a : α) (f : α → Except String β) :
    ((Except.ok a : Except String α) >>= f) = f a := rfl

@[simp] lemma error_bind {α β : Type} (e : String) (f : α → Except String β) :
    ((Except.error e : Except String α) >>= f) = Except.error e := rfl

@[simp] lemma except_bind_ok {α β : Type} {x : Except String α}
    {f : α → Except String β} {b : β} :
    (x >>= f) = .ok b ↔ ∃ a, x = .ok a ∧ f a = .ok b := by
  cases x <;> simp [Bind.bind, Except.bind]

@[simp] lemma require_eq_ok {P : Prop} [Decidable P] {msg : String} {u : Unit} :
    require P msg = .ok u ↔ P := by
  unfold require
  split <;> simp_all

lemma require_pos {P : Prop} [Decidable P] (h : P) (msg : String) :
    require P msg = .ok () := by
  simp [require, h]

lemma require_neg {P : Prop} [Decidable P] (h : ¬ P) (msg : String) :
    require P msg = .error msg := by
  simp [require, h]

@[simp] lemma getChallenge_eq_ok {s : ContractState} {cid : Nat} {c : Challenge} :
    getChallenge s cid = .ok c ↔ s.challenges[cid]? = some c := by
  unfold getChallenge
  cases h : s.challenges[cid]? <;> simp

@[simp] lemma recoverE_eq_ok {m : List Nat} {sig : Sig} {a : Address} :
    recoverE m sig = .ok a ↔ recover m sig = some a := by
  unfold recoverE
  cases h : recover m sig <;> simp

lemma materializeCancelled_eq (c : Challenge) :
    materializeCancelled c = { c with state := ChallengeState.CANCELLED } := by
  unfold materializeCancelled
  split
  · rfl
  next h =>
    cases c
    simp only [not_not] at h
    simp_all

/-! ## Success inversion: what each operation's success tells us -/

lemma createChallenge_ok_inv {s : ContractState} {sender now st et sa : Nat}
    {aa : List Address} {s1 : ContractState} {rid : Nat}
    (h : createChallenge s sender now st et sa aa = .ok (s1, rid)) :
    st > now ∧ et > st ∧ sa > 0 ∧ aa.length ≥ 1 ∧
    ∃ wl, buildWhitelist sender [sender] aa = .ok wl ∧
      rid = s.challenges.length ∧
      s1.challenges = s.challenges ++
        [{ id := s.challenges.length, creator := sender, startTime := st,
           endTime := et, stakeAmount := sa, totalStaked := 0,
           state := ChallengeState.PENDING, winner := 0, finalDataHash := 0,
           participantCount := 0 }] ∧
      s1.allowed = (fun i => if i = s.challenges.length then wl else s.allowed i) ∧
      s1.participants = s.participants ∧ s1.oracle = s.oracle := by
  unfold createChallenge at h
  simp only [except_bind_ok, require_eq_ok, exists_const, pure, Except.pure,
    Except.ok.injEq, Prod.mk.injEq] at h
  obtain ⟨h1, h2, h3, h4, wl, hwl, hs1, hrid⟩ := h
  subst hs1 hrid
  exact ⟨h1, h2, h3, h4, wl, hwl, rfl, rfl, rfl, rfl, rfl⟩

lemma joinChallenge_ok_inv {s : ContractState} {sender now value cid : Nat}
    {uid : String} {s1 : ContractState}
    (h : joinChallenge s sender now value cid uid = .ok s1) :
    ∃ c, s.challenges[cid]? = some c ∧
      isAllowedParticipant s cid sender = true ∧
      effectiveState c (s.allowed cid).length now = ChallengeState.PENDING ∧
      now < c.startTime ∧ value = c.stakeAmount ∧
      (s.participants cid sender).hasJoined = false ∧
      uid.length > 0 ∧ c.totalStaked + value < UINT256_BOUND ∧
      s1.challenges = s.challenges.set cid
        { c with totalStaked := c.totalStaked + value,
                 participantCount := c.participantCount + 1 } ∧
      s1.participants = updateParticipant s.participants cid sender
        { userAddress := sender, stravaUserId := uid, stake := value,
          hasJoined := true } ∧
      s1.allowed = s.allowed ∧ s1.oracle = s.oracle := by
  unfold joinChallenge at h
  simp only [except_bind_ok, getChallenge_eq_ok, require_eq_ok, exists_const,
    pure, Except.pure, Except.ok.injEq] at h
  obtain ⟨c, hget, hwl, heff, hstart, hval, hjoined, huid, hover, hs1⟩ := h
  subst hs1
  exact ⟨c, hget, hwl, heff, hstart, hval, hjoined, huid, hover,
    rfl, rfl, rfl, rfl⟩

lemma claimPrizeWithSignature_ok_inv {s : ContractState}
    {sender now cid : Nat} {winner : Address} {dataHash timestamp : Nat}
    {sig : Sig} {s1 : ContractState} {trs : List (Address × Nat)}
    (h : claimPrizeWithSignature s sender now cid winner dataHash timestamp sig =
          .ok (s1, trs)) :
    ∃ c, s.challenges[cid]? = some c ∧
      effectiveState c (s.allowed cid).length now = ChallengeState.GRACE_PERIOD ∧
      now ≥ c.endTime ∧ now < c.endTime + EMERGENCY_PERIOD ∧
      sender = winner ∧ (s.participants cid winner).hasJoined = true ∧
      recover (finalizeMessage cid winner dataHash timestamp) sig = some s.oracle ∧
      s1.challenges = s.challenges.set cid
        { c with state := ChallengeState.COMPLETED, winner := winner,
                 finalDataHash := dataHash, totalStaked := 0 } ∧
      s1.participants = s.participants ∧ s1.allowed = s.allowed ∧
      s1.oracle = s.oracle ∧ trs = [(winner, c.totalStaked)] := by
  unfold claimPrizeWithSignature at h
  simp only [except_bind_ok, getChallenge_eq_ok, require_eq_ok, recoverE_eq_ok,
    exists_const, pure, Except.pure, Except.ok.injEq, Prod.mk.injEq] at h
  obtain ⟨c, hget, heff, hend, hemer, hsender, hjoined, _, _, _,
    signer, hrec, hsig, hs1, htrs⟩ := h
  subst hs1 htrs hsig
  exact ⟨c, hget, heff, hend, hemer, hsender, hjoined, hrec,
    rfl, rfl, rfl, rfl, rfl⟩

lemma cancelChallengeByConsent_ok_inv {s : ContractState}
    {sender now cid : Nat} {sigs : List Sig} {s1 : ContractState}
    (h : cancelChallengeByConsent s sender now cid sigs = .ok s1) :
    ∃ c, s.challenges[cid]? = some c ∧
      (effectiveState c (s.allowed cid).length now = ChallengeState.PENDING ∨
       effectiveState c (s.allowed cid).length now = ChallengeState.ACTIVE ∨
       effectiveState c (s.allowed cid).length now = ChallengeState.GRACE_PERIOD) ∧
      sigs.length = c.participantCount ∧
      checkSigs s cid (cancelMessage cid) [] sigs = .ok () ∧
      s1.challenges = s.challenges.set cid { c with state := ChallengeState.CANCELLED } ∧
      s1.participants = s.participants ∧ s1.allowed = s.allowed ∧
      s1.oracle = s.oracle := by
  unfold cancelChallengeByConsent at h
  simp only [except_bind_ok, getChallenge_eq_ok, require_eq_ok, exists_const,
    pure, Except.pure, Except.ok.injEq] at h
  obtain ⟨c, hget, heff, hlen, u, hsigs, hs1⟩ := h
  subst hs1
  exact ⟨c, hget, heff, hlen, hsigs, rfl, rfl, rfl, rfl⟩

lemma withdrawFromCancelled_ok_inv {s : ContractState}
    {sender now cid : Nat} {s1 : ContractState} {trs : List (Address × Nat)}
    (h : withdrawFromCancelled s sender now cid = .ok (s1, trs)) :
    ∃ c, s.challenges[cid]? = some c ∧
      effectiveState c (s.allowed cid).length now = ChallengeState.CANCELLED ∧
      (s.participants cid sender).stake > 0 ∧
      (s.participants cid sender).stake ≤ c.totalStaked ∧
      s1.challenges = s.challenges.set cid
        { c with state := ChallengeState.CANCELLED,
                 totalStaked := c.totalStaked - (s.participants cid sender).stake } ∧
      s1.participants = updateParticipant s.participants cid sender
        { s.participants cid sender with stake := 0 } ∧
      s1.allowed = s.allowed ∧ s1.oracle = s.oracle ∧
      trs = [(sender, (s.participants cid sender).stake)] := by
  unfold withdrawFromCancelled at h
  simp only [except_bind_ok, getChallenge_eq_ok, require_eq_ok, exists_const,
    pure, Except.pure, Except.ok.injEq, Prod.mk.injEq,
    materializeCancelled_eq] at h
  obtain ⟨c, hget, heff, hpos, hle, hs1, htrs⟩ := h
  subst hs1 htrs
  exact ⟨c, hget, heff, hpos, hle, rfl, rfl, rfl, rfl, rfl⟩

lemma emergencyWithdraw_ok_inv {s : ContractState}
    {sender now cid : Nat} {s1 : ContractState} {trs : List (Address × Nat)}
    (h : emergencyWithdraw s sender now cid = .ok (s1, trs)) :
    ∃ c, s.challenges[cid]? = some c ∧
      (effectiveState c (s.allowed cid).length now ≠ ChallengeState.FINALIZED ∧
       effectiveState c (s.allowed cid).length now ≠ ChallengeState.COMPLETED ∧
       effectiveState c (s.allowed cid).length now ≠ ChallengeState.CANCELLED) ∧
      now ≥ c.endTime + EMERGENCY_PERIOD ∧
      (s.participants cid sender).stake > 0 ∧
      (s.participants cid sender).stake ≤ c.totalStaked ∧
      s1.challenges = s.challenges.set cid
        { c with totalStaked := c.totalStaked - (s.participants cid sender).stake } ∧
      s1.participants = updateParticipant s.participants cid sender
        { s.participants cid sender with stake := 0 } ∧
      s1.allowed = s.allowed ∧ s1.oracle = s.oracle ∧
      trs = [(sender, (s.participants cid sender).stake)] := by
  unfold emergencyWithdraw at h
  simp only [except_bind_ok, getChallenge_eq_ok, require_eq_ok, exists_const,
    pure, Except.pure, Except.ok.injEq, Prod.mk.injEq] at h
  obtain ⟨c, hget, heff, htime, hpos, hle, hs1, htrs⟩ := h
  subst hs1 htrs
  exact ⟨c, hget, heff, htime, hpos, hle, rfl, rfl, rfl, rfl, rfl⟩

/-! ## Claim C3: lazy effective-state derivation -/

/-- C3: for every challenge, stored state, participant count, whitelist
size and current time, the contract's `getEffectiveState` derivation
returns exactly the specification's five-step derivation. -/
theorem effectiveState_matches_spec (c : Challenge) (whitelistSize now : Nat) :
    effectiveState c whitelistSize now = effectiveStateSpec c whitelistSize now := by
  unfold effectiveState effectiveStateSpec
  cases h : c.state <;> simp [h]

/-! ## Claim C6: domain separation of the two signed messages -/

/-- C6: a signature over the cancellation message (prefix
`CANCEL_CHALLENGE_`) never verifies on `claimPrizeWithSignature`'s
finalize path, which recovers over a message with prefix
`FINALIZE_CHALLENGE_`: the two domain-separated byte strings differ
for all inputs, so recovering a cancel signature against a finalize
message always fails. -/
theorem finalize_cancel_domain_separation (cid : Nat) (winner : Address)
    (dataHash timestamp cid' : Nat) (a : Address) :
    finalizeMessage cid winner dataHash timestamp ≠ cancelMessage cid' ∧
    recover (finalizeMessage cid winner dataHash timestamp)
      { signer := a, message := cancelMessage cid' } = none := by
  have hne : finalizeMessage cid winner dataHash timestamp ≠ cancelMessage cid' := by
    intro h
    have h0 := congrArg List.head? h
    have h1 : (finalizeMessage cid winner dataHash timestamp).head? = some 70 := rfl
    have h2 : (cancelMessage cid').head? = some 67 := rfl
    rw [h1, h2] at h0
    exact absurd h0 (by decide)
  refine ⟨hne, ?_⟩
  unfold recover
  exact if_neg (fun h => hne h.symm)

/-! ## Claim C2: the prize can be claimed at most once -/

/-- C2: `claimPrizeWithSignature` succeeds at most once per challenge:
a successful call stores the terminal COMPLETED state, and every later
call for the same challenge — whatever its caller, timestamp, claimed
winner, hash or signature — fails with the terminal-state error
`"Challenge not in grace period"` (an `error` result changes no
storage and makes no transfer). -/
theorem claim_succeeds_at_most_once
    (s : ContractState) (sender now cid : Nat) (winner : Address)
    (dataHash timestamp : Nat) (sig : Sig) (s1 : ContractState)
    (trs : List (Address × Nat))
    (h : claimPrizeWithSignature s sender now cid winner dataHash timestamp sig =
          .ok (s1, trs))
    (sender2 now2 : Nat) (winner2 : Address) (dataHash2 timestamp2 : Nat)
    (sig2 : Sig) :
    claimPrizeWithSignature s1 sender2 now2 cid winner2 dataHash2 timestamp2 sig2 =
      .error "Challenge not in grace period" := by
  obtain ⟨c, hget, _, _, _, _, _, _, hch, _, _, _⟩ :=
    claimPrizeWithSignature_ok_inv h
  have hlt : cid < s.challenges.length := (List.getElem?_eq_some_iff.mp hget).1
  have hget1 : s1.challenges[cid]? = some
      { c with state := ChallengeState.COMPLETED, winner := winner,
               finalDataHash := dataHash, totalStaked := 0 } := by
    rw [hch]; exact List.getElem?_set_self hlt
  unfold claimPrizeWithSignature getChallenge
  rw [hget1]
  simp [effectiveState, require_neg]

/-- Witness for C2: in the demo run the second claim attempt fails
with the terminal-state error. -/
theorem claim_succeeds_at_most_once_witness :
    claimPrizeWithSignature demoClaimed 1 260 0 1 7 260 demoSig =
      .error "Challenge not in grace period" :=
  claim_succeeds_at_most_once demoState 1 250 0 1 7 250 demoSig demoClaimed
    [(1, 10)] rfl 1 260 1 7 260 demoSig

/-! ## Claim C7: when stake fields are zeroed -/

/-- Counterexample to C7: in the demo run, `claimPrizeWithSignature`
succeeds (winner 1 collects the 10-unit pool), yet participants 1 and
2 still have `stake = 5 ≠ 0` in storage afterwards: prize payout does
not zero the participants' stake fields. -/
theorem participant_stake_not_zeroed_on_payout :
    claimPrizeWithSignature demoState 1 250 0 1 7 250 demoSig =
      .ok (demoClaimed, [(1, 10)]) ∧
    (demoClaimed.participants 0 2).hasJoined = true ∧
    (demoClaimed.participants 0 2).stake = 5 ∧
    (demoClaimed.participants 0 1).stake = 5 := by
  exact ⟨rfl, by decide, by decide, by decide⟩

/-- C7 as amended: the stored stake field is zeroed when the
participant withdraws (`withdrawFromCancelled` or
`emergencyWithdraw`); a successful `claimPrizeWithSignature` instead
zeroes the challenge's `totalStaked` and leaves every participant
stake field unchanged. -/
theorem stake_zeroed_on_withdrawal_not_on_payout :
    (∀ (s : ContractState) (sender now cid : Nat) (s1 : ContractState)
        (trs : List (Address × Nat)),
      withdrawFromCancelled s sender now cid = .ok (s1, trs) →
        (s1.participants cid sender).stake = 0) ∧
    (∀ (s : ContractState) (sender now cid : Nat) (s1 : ContractState)
        (trs : List (Address × Nat)),
      emergencyWithdraw s sender now cid = .ok (s1, trs) →
        (s1.participants cid sender).stake = 0) ∧
    (∀ (s : ContractState) (sender now cid : Nat) (winner : Address)
        (dataHash timestamp : Nat) (sig : Sig) (s1 : ContractState)
        (trs : List (Address × Nat)),
      claimPrizeWithSignature s sender now cid winner dataHash timestamp sig =
          .ok (s1, trs) →
        s1.participants = s.participants ∧
        ∃ c1, s1.challenges[cid]? = some c1 ∧ c1.totalStaked = 0) := by
  refine ⟨?_, ?_, ?_⟩
  · intro s sender now cid s1 trs h
    obtain ⟨c, hget, _, _, _, _, hparts, _, _, _⟩ := withdrawFromCancelled_ok_inv h
    rw [hparts]
    simp [updateParticipant]
  · intro s sender now cid s1 trs h
    obtain ⟨c, hget, _, _, _, _, _, hparts, _, _, _⟩ := emergencyWithdraw_ok_inv h
    rw [hparts]
    simp [updateParticipant]
  · intro s sender now cid winner dataHash timestamp sig s1 trs h
    obtain ⟨c, hget, _, _, _, _, _, _, hch, hparts, _, _⟩ :=
      claimPrizeWithSignature_ok_inv h
    have hlt : cid < s.challenges.length := (List.getElem?_eq_some_iff.mp hget).1
    refine ⟨hparts,
      ⟨{ c with state := ChallengeState.COMPLETED, winner := winner,
                finalDataHash := dataHash, totalStaked := 0 }, ?_, rfl⟩⟩
    rw [hch]
    exact List.getElem?_set_self hlt

/-- Witness for the amended C7: in the under-subscribed demo run,
account 1's withdrawal zeroes its stake field, and in the claimed demo
run payout leaves the stake fields untouched while zeroing
`totalStaked`. -/
theorem stake_zeroed_on_withdrawal_not_on_payout_witness :
    ((execOps (initState 9) [Op.create 1 0 100 200 5 [2], Op.join 1 10 5 0 "strava-1",
        Op.withdrawCancelled 1 150 0]).participants 0 1).stake = 0 ∧
    demoClaimed.participants = demoState.participants := by
  constructor
  · exact stake_zeroed_on_withdrawal_not_on_payout.1 demoUnder 1 150 0 _ _ rfl
  · exact (stake_zeroed_on_withdrawal_not_on_payout.2.2 demoState 1 250 0 1 7 250
      demoSig demoClaimed [(1, 10)] rfl).1

/-! ## Claim C5 and C10: unanimous-consent cancellation -/

lemma recover_eq_some_iff {m : List Nat} {sig : Sig} {a : Address} :
    recover m sig = some a ↔ sig.message = m ∧ a = sig.signer := by
  unfold recover
  split <;> simp_all [eq_comm]

/-- What the signature-verification loop accepts: every signature is
over the message `m` and recovers to a joined participant, the
recovered signers are pairwise distinct, and none of them repeats an
already-seen signer. -/
lemma checkSigs_ok_iff (s : ContractState) (cid : Nat) (m : List Nat) :
    ∀ (sigs : List Sig) (seen : List Address),
      checkSigs s cid m seen sigs = .ok () ↔
        ((∀ sig ∈ sigs, sig.message = m ∧
            (s.participants cid sig.signer).hasJoined = true) ∧
         (sigs.map Sig.signer).Nodup ∧
         ∀ x ∈ sigs.map Sig.signer, x ∉ seen) := by
  intro sigs
  induction sigs with
  | nil =>
    intro seen
    simp [checkSigs]
  | cons sig rest ih =>
    intro seen
    unfold checkSigs
    simp only [except_bind_ok, recoverE_eq_ok, require_eq_ok, exists_const,
      recover_eq_some_iff]
    constructor
    · rintro ⟨signer, ⟨hmsg, hsigner⟩, hjoined, hnotseen, hrest⟩
      subst hsigner
      obtain ⟨hall, hnd, hout⟩ := (ih (seen ++ [sig.signer])).mp hrest
      have hnotseen' : sig.signer ∉ seen := by
        intro hmem
        simp only [List.contains, List.elem_eq_mem, decide_eq_false_iff_not] at hnotseen
        exact hnotseen hmem
      refine ⟨?_, ?_, ?_⟩
      · intro sig' hmem
        rcases List.mem_cons.mp hmem with h | h
        · subst h; exact ⟨hmsg, hjoined⟩
        · exact hall sig' h
      · rw [List.map_cons, List.nodup_cons]
        refine ⟨?_, hnd⟩
        intro hmem
        exact hout _ hmem (List.mem_append.mpr (Or.inr (List.mem_singleton.mpr rfl)))
      · intro x hx
        rcases List.mem_cons.mp hx with h | h
        · subst h; exact hnotseen'
        · intro hxs
          exact hout x h (List.mem_append.mpr (Or.inl hxs))
    · rintro ⟨hall, hnd, hout⟩
      obtain ⟨hmsg, hjoined⟩ := hall sig (List.mem_cons_self sig rest)
      rw [List.map_cons, List.nodup_cons] at hnd
      have hsignerout : sig.signer ∉ seen :=
        hout sig.signer (by rw [List.map_cons]; exact List.mem_cons_self _ _)
      refine ⟨sig.signer, ⟨hmsg, rfl⟩, hjoined, ?_, ?_⟩
      · simp only [List.contains, List.elem_eq_mem, decide_eq_false_iff_not]
        exact hsignerout
      · apply (ih (seen ++ [sig.signer])).mpr
        refine ⟨fun sig' h => hall sig' (List.mem_cons_of_mem _ h), hnd.2, ?_⟩
        intro x hx hmem
        rcases List.mem_append.mp hmem with hs | hone
        · exact hout x (by rw [List.map_cons]; exact List.mem_cons_of_mem _ hx) hs
        · exact hnd.1 (List.mem_singleton.mp hone ▸ hx)

/-- Characterization of when `cancelChallengeByConsent` succeeds, and
the exact storage it then writes. -/
lemma cancelChallengeByConsent_char (s : ContractState) (sender now cid : Nat)
    (c : Challenge) (sigs : List Sig) (hget : s.challenges[cid]? = some c)
    (heff : effectiveState c (s.allowed cid).length now = ChallengeState.PENDING ∨
            effectiveState c (s.allowed cid).length now = ChallengeState.ACTIVE ∨
            effectiveState c (s.allowed cid).length now = ChallengeState.GRACE_PERIOD)
    (hlen : sigs.length = c.participantCount)
    (hsigs : checkSigs s cid (cancelMessage cid) [] sigs = .ok ()) :
    cancelChallengeByConsent s sender now cid sigs =
      .ok (setChallenge s cid { c with state := ChallengeState.CANCELLED }) := by
  have hgc : getChallenge s cid = .ok c := getChallenge_eq_ok.mpr hget
  unfold cancelChallengeByConsent
  rw [hgc, ok_bind]
  dsimp only
  rw [require_pos heff, ok_bind, require_pos hlen, ok_bind, hsigs, ok_bind]
  rfl

/-- C5: `cancelChallengeByConsent` succeeds exactly when the effective
state is PENDING, ACTIVE or GRACE_PERIOD and the signature list has
exactly `participantCount` entries, each over the cancellation message
of this challenge and recovering to a joined participant, with no two
signatures recovering to the same signer; any failing call (missing a
joined participant's signature, duplicate signer, …) reverts and
leaves the storage unchanged. -/
theorem cancel_succeeds_iff (s : ContractState) (sender now cid : Nat)
    (c : Challenge) (sigs : List Sig) (hget : s.challenges[cid]? = some c) :
    ((∃ s1, cancelChallengeByConsent s sender now cid sigs = .ok s1) ↔
      ((effectiveState c (s.allowed cid).length now = ChallengeState.PENDING ∨
        effectiveState c (s.allowed cid).length now = ChallengeState.ACTIVE ∨
        effectiveState c (s.allowed cid).length now = ChallengeState.GRACE_PERIOD) ∧
       sigs.length = c.participantCount ∧
       (∀ sig ∈ sigs, sig.message = cancelMessage cid ∧
          (s.participants cid sig.signer).hasJoined = true) ∧
       (sigs.map Sig.signer).Nodup)) ∧
    (∀ e, cancelChallengeByConsent s sender now cid sigs = .error e →
      execOp s (Op.cancel sender now cid sigs) = s) := by
  constructor
  · constructor
    · rintro ⟨s1, h⟩
      obtain ⟨c', hget', heff, hlen, hsigs, _, _, _, _⟩ :=
        cancelChallengeByConsent_ok_inv h
      rw [hget] at hget'
      injection hget' with hc
      subst hc
      obtain ⟨hall, hnd, _⟩ := (checkSigs_ok_iff s cid (cancelMessage cid) sigs []).mp hsigs
      exact ⟨heff, hlen, hall, hnd⟩
    · rintro ⟨heff, hlen, hall, hnd⟩
      refine ⟨_, cancelChallengeByConsent_char s sender now cid c sigs hget heff hlen ?_⟩
      exact (checkSigs_ok_iff s cid (cancelMessage cid) sigs []).mpr
        ⟨hall, hnd, by simp⟩
  · intro e h
    have hexec : execOp s (Op.cancel sender now cid sigs) =
        match cancelChallengeByConsent s sender now cid sigs with
        | .ok s1 => s1
        | .error _ => s := rfl
    rw [hexec, h]

/-- Witness for C5: in the demo run, the complete, duplicate-free
consent set of both joined participants makes cancellation succeed,
while dropping one signature (wrong count) or doubling one (duplicate
signer) makes the right-hand side false. -/
theorem cancel_succeeds_iff_witness :
    (∃ s1, cancelChallengeByConsent demoState 4 150 0
      [{ signer := 1, message := cancelMessage 0 },
       { signer := 2, message := cancelMessage 0 }] = .ok s1) ∧
    ¬ (∃ s1, cancelChallengeByConsent demoState 4 150 0
      [{ signer := 1, message := cancelMessage 0 },
       { signer := 1, message := cancelMessage 0 }] = .ok s1) := by
  constructor
  · exact (cancel_succeeds_iff demoState 4 150 0 _
      [{ signer := 1, message := cancelMessage 0 },
       { signer := 2, message := cancelMessage 0 }] rfl).1.mpr
      ⟨Or.inr (Or.inl (by decide)), by decide, by decide, by decide⟩
  · intro hex
    have h := (cancel_succeeds_iff demoState 4 150 0 _
      [{ signer := 1, message := cancelMessage 0 },
       { signer := 1, message := cancelMessage 0 }] rfl).1.mp hex
    exact absurd h.2.2.2 (by decide)

/-- C10: a challenge with no joined participants (and a cancellable
effective state) can be cancelled by anyone with an empty signature
array: the unanimity check is `0 = 0` and the stored state becomes
CANCELLED. -/
theorem cancel_empty_signatures_no_participants (s : ContractState)
    (sender now cid : Nat) (c : Challenge)
    (hget : s.challenges[cid]? = some c) (hcount : c.participantCount = 0)
    (heff : effectiveState c (s.allowed cid).length now = ChallengeState.PENDING ∨
            effectiveState c (s.allowed cid).length now = ChallengeState.ACTIVE ∨
            effectiveState c (s.allowed cid).length now = ChallengeState.GRACE_PERIOD) :
    cancelChallengeByConsent s sender now cid [] =
      .ok (setChallenge s cid { c with state := ChallengeState.CANCELLED }) :=
  cancelChallengeByConsent_char s sender now cid c [] hget heff
    (by simp [hcount]) rfl

/-- Witness for C10: before its start time, the freshly created demo
challenge (zero joined participants) is cancelled by an address that
is not even whitelisted, with no signatures. -/
theorem cancel_empty_signatures_no_participants_witness :
    ∃ s1, cancelChallengeByConsent demoCreated 4 50 0 [] = .ok s1 ∧
      s1.challenges[0]?.map Challenge.state = some ChallengeState.CANCELLED := by
  refine ⟨_, cancel_empty_signatures_no_participants demoCreated 4 50 0 _ rfl
    (by decide) (Or.inl (by decide)), by decide⟩

/-! ## Claim C8: withdrawal from a cancelled challenge -/

/-- C8: when the effective state is CANCELLED, a caller with positive
stake succeeds: the stored state is written to CANCELLED (a no-op when
already stored), the caller's stake is zeroed, subtracted from
`totalStaked`, and transferred back; a caller with zero stake fails
with the no-stake error; and when the effective state is not CANCELLED
the call fails with the not-cancelled error.  (The bound
`stake ≤ totalStaked` discharges the checked subtraction; it holds in
every reachable state by the `totalStaked` invariant.) -/
theorem withdrawFromCancelled_spec (s : ContractState) (sender now cid : Nat)
    (c : Challenge) (hget : s.challenges[cid]? = some c) :
    (effectiveState c (s.allowed cid).length now = ChallengeState.CANCELLED →
      (s.participants cid sender).stake > 0 →
      (s.participants cid sender).stake ≤ c.totalStaked →
      withdrawFromCancelled s sender now cid = .ok
        (setChallengeAndParticipant s cid
          { c with state := ChallengeState.CANCELLED,
                   totalStaked := c.totalStaked - (s.participants cid sender).stake }
          sender { s.participants cid sender with stake := 0 },
         [(sender, (s.participants cid sender).stake)])) ∧
    (effectiveState c (s.allowed cid).length now = ChallengeState.CANCELLED →
      (s.participants cid sender).stake = 0 →
      withdrawFromCancelled s sender now cid = .error "No stake to withdraw") ∧
    (effectiveState c (s.allowed cid).length now ≠ ChallengeState.CANCELLED →
      withdrawFromCancelled s sender now cid = .error "Challenge not cancelled") := by
  have hgc : getChallenge s cid = .ok c := getChallenge_eq_ok.mpr hget
  refine ⟨?_, ?_, ?_⟩
  · intro heff hpos hle
    have hle' : (s.participants cid sender).stake ≤ (materializeCancelled c).totalStaked := by
      rw [materializeCancelled_eq]; exact hle
    unfold withdrawFromCancelled
    rw [hgc, ok_bind]
    dsimp only
    rw [require_pos heff, ok_bind, require_pos hpos, ok_bind, require_pos hle',
      ok_bind, materializeCancelled_eq]
    rfl
  · intro heff hzero
    unfold withdrawFromCancelled
    rw [hgc, ok_bind]
    dsimp only
    rw [require_pos heff, ok_bind, require_neg (by simp [hzero])]
    rfl
  · intro heff
    unfold withdrawFromCancelled
    rw [hgc, ok_bind]
    dsimp only
    rw [require_neg heff]
    rfl

/-- Witness for C8: in the under-subscribed demo run at time 150 the
effective state is CANCELLED; account 1 withdraws its 5-unit stake,
a second withdrawal fails with the no-stake error, and before start
time (effective state PENDING) withdrawal fails with the not-cancelled
error. -/
theorem withdrawFromCancelled_spec_witness :
    (∃ s1, withdrawFromCancelled demoUnder 1 150 0 = .ok (s1, [(1, 5)])) ∧
    withdrawFromCancelled demoUnder 2 150 0 = .error "No stake to withdraw" ∧
    withdrawFromCancelled demoUnder 1 50 0 = .error "Challenge not cancelled" := by
  exact ⟨⟨_, (withdrawFromCancelled_spec demoUnder 1 150 0 _ rfl).1 (by decide)
      (by decide) (by decide)⟩,
    (withdrawFromCancelled_spec demoUnder 2 150 0 _ rfl).2.1 (by decide) (by decide),
    (withdrawFromCancelled_spec demoUnder 1 50 0 _ rfl).2.2 (by decide)⟩

/-! ## Claim C4: emergency withdrawal -/

/-- Counterexample to C4: in the under-subscribed demo run the
challenge's effective state is CANCELLED; account 1 is a joined
participant with a remaining 5-unit stake and the emergency period is
over (`now = end + 14 days`), yet `emergencyWithdraw` fails with
"Challenge already resolved" — the refund path for a cancelled
challenge is `withdrawFromCancelled`, not `emergencyWithdraw`. -/
theorem emergency_withdraw_not_unconditional :
    (demoUnder.participants 0 1).hasJoined = true ∧
    (demoUnder.participants 0 1).stake = 5 ∧
    (demoUnder.challenges[0]?).map
      (fun c => c.endTime + EMERGENCY_PERIOD) = some 1209800 ∧
    emergencyWithdraw demoUnder 1 1209800 0 = .error "Challenge already resolved" := by
  exact ⟨by decide, by decide, by decide, rfl⟩

/-- C4 as amended: `emergencyWithdraw` fails at every time before
`end + EMERGENCY_PERIOD` (14 days); from that instant on it succeeds
for every caller with a remaining stake — zeroing the stake,
subtracting it from `totalStaked`, and transferring it back —
provided the effective state is not FINALIZED, COMPLETED or CANCELLED
(for a cancelled challenge the refund path is `withdrawFromCancelled`).
The bound `stake ≤ totalStaked` discharges the checked subtraction and
holds in every reachable state. -/
theorem emergencyWithdraw_spec (s : ContractState) (sender now cid : Nat)
    (c : Challenge) (hget : s.challenges[cid]? = some c) :
    (now < c.endTime + EMERGENCY_PERIOD →
      ∃ e, emergencyWithdraw s sender now cid = .error e) ∧
    (now ≥ c.endTime + EMERGENCY_PERIOD →
      (effectiveState c (s.allowed cid).length now ≠ ChallengeState.FINALIZED ∧
       effectiveState c (s.allowed cid).length now ≠ ChallengeState.COMPLETED ∧
       effectiveState c (s.allowed cid).length now ≠ ChallengeState.CANCELLED) →
      (s.participants cid sender).stake > 0 →
      (s.participants cid sender).stake ≤ c.totalStaked →
      emergencyWithdraw s sender now cid = .ok
        (setChallengeAndParticipant s cid
          { c with totalStaked := c.totalStaked - (s.participants cid sender).stake }
          sender { s.participants cid sender with stake := 0 },
         [(sender, (s.participants cid sender).stake)])) := by
  have hgc : getChallenge s cid = .ok c := getChallenge_eq_ok.mpr hget
  constructor
  · intro htime
    by_cases heff : effectiveState c (s.allowed cid).length now ≠ ChallengeState.FINALIZED ∧
        effectiveState c (s.allowed cid).length now ≠ ChallengeState.COMPLETED ∧
        effectiveState c (s.allowed cid).length now ≠ ChallengeState.CANCELLED
    · refine ⟨"Emergency period not reached", ?_⟩
      unfold emergencyWithdraw
      rw [hgc, ok_bind]
      dsimp only
      rw [require_pos heff, ok_bind, require_neg (by omega)]
      rfl
    · refine ⟨"Challenge already resolved", ?_⟩
      unfold emergencyWithdraw
      rw [hgc, ok_bind]
      dsimp only
      rw [require_neg heff]
      rfl
  · intro htime heff hpos hle
    unfold emergencyWithdraw
    rw [hgc, ok_bind]
    dsimp only
    rw [require_pos heff, ok_bind, require_pos htime, ok_bind, require_pos hpos,
      ok_bind, require_pos hle, ok_bind]
    rfl

/-- Witness for the amended C4: in the fully-subscribed demo run the
stored state stays PENDING (effective GRACE_PERIOD after the end), so
at `end + 14 days` account 2 recovers its 5-unit stake, while earlier
(time 250) the same call fails. -/
theorem emergencyWithdraw_spec_witness :
    (∃ e, emergencyWithdraw demoState 2 250 0 = .error e) ∧
    (∃ s1, emergencyWithdraw demoState 2 1209800 0 = .ok (s1, [(2, 5)])) := by
  exact ⟨(emergencyWithdraw_spec demoState 2 250 0 _ rfl).1 (by decide),
    ⟨_, (emergencyWithdraw_spec demoState 2 1209800 0 _ rfl).2 (by decide)
      (by decide) (by decide) (by decide)⟩⟩

/-! ## Claim C1: the `totalStaked` bookkeeping invariant -/

lemma le_sum_map_of_mem {l : List Address} {a : Address} (h : a ∈ l)
    (f : Address → Nat) : f a ≤ (l.map f).sum := by
  induction l with
  | nil => cases h
  | cons b t ih =>
    rcases List.mem_cons.mp h with rfl | h'
    · simp
    · simp only [List.map_cons, List.sum_cons]
      exact le_trans (ih h') (Nat.le_add_left _ _)

/-- Updating one entry of a duplicate-free list changes a sum of
values by exactly the difference at that entry. -/
lemma sum_map_update {l : List Address} (hnd : l.Nodup) {a : Address}
    (h : a ∈ l) (f : Address → Nat) (v : Nat) :
    (l.map (fun x => if x = a then v else f x)).sum + f a = (l.map f).sum + v := by
  induction l with
  | nil => cases h
  | cons b t ih =>
    rw [List.nodup_cons] at hnd
    rcases List.mem_cons.mp h with rfl | h'
    · simp only [List.map_cons, List.sum_cons, if_true]
      have hmap : t.map (fun x => if x = a then v else f x) = t.map f := by
        apply List.map_congr_left
        intro x hx
        exact if_neg (fun hxa : x = a => hnd.1 (hxa ▸ hx))
      rw [hmap]
      omega
    · have hba : b ≠ a := fun hba => hnd.1 (hba ▸ h')
      simp only [List.map_cons, List.sum_cons, if_neg hba]
      have := ih hnd.2 h'
      omega

lemma effectiveState_completed {c : Challenge}
    (h : c.state = ChallengeState.COMPLETED) (n t : Nat) :
    effectiveState c n t = ChallengeState.COMPLETED := by
  unfold effectiveState
  rw [if_pos (Or.inl h)]
  exact h

lemma updateParticipant_same (f : Nat → Address → Participant) (cid : Nat)
    (x : Address) (p : Participant) (a : Address) :
    updateParticipant f cid x p cid a = if a = x then p else f cid a := by
  unfold updateParticipant
  by_cases h : a = x <;> simp [h]

lemma updateParticipant_other (f : Nat → Address → Participant) {cid cid' : Nat}
    (x : Address) (p : Participant) (a : Address) (h : cid' ≠ cid) :
    updateParticipant f cid x p cid' a = f cid' a := by
  unfold updateParticipant
  simp [h]

lemma buildWhitelist_nodup (sender : Address) :
    ∀ (l acc wl : List Address), buildWhitelist sender acc l = .ok wl →
      acc.Nodup → wl.Nodup := by
  intro l
  induction l with
  | nil =>
    intro acc wl h hnd
    unfold buildWhitelist at h
    rw [Except.ok.injEq] at h
    exact h ▸ hnd
  | cons a rest ih =>
    intro acc wl h hnd
    unfold buildWhitelist at h
    simp only [except_bind_ok, require_eq_ok, exists_const] at h
    obtain ⟨h0, hs, hdup, hrec⟩ := h
    apply ih (acc ++ [a]) wl hrec
    have hnotmem : a ∉ acc := by
      simp only [List.contains, List.elem_eq_mem, decide_eq_false_iff_not] at hdup
      exact hdup
    rw [List.nodup_append]
    exact ⟨hnd, List.nodup_singleton a,
      fun x hx hxa => hnotmem ((List.mem_singleton.mp hxa) ▸ hx)⟩

lemma wf_initState (oracle : Address) : Wf (initState oracle) := by
  unfold Wf initState
  refine ⟨?_, ?_, ?_, ?_, ?_⟩
  · intro cid h
    simp at h
  · intro cid a _
    rfl
  · intro cid a _
    rfl
  · intro cid _
    exact ⟨rfl, fun a => rfl⟩
  · intro cid c h
    simp at h

lemma wf_create {s : ContractState} {sender now st et sa : Nat}
    {aa : List Address} {s1 : ContractState} {rid : Nat} (hwf : Wf s)
    (h : createChallenge s sender now st et sa aa = .ok (s1, rid)) : Wf s1 := by
  obtain ⟨_, _, _, _, wl, hwl, hrid, hch, hal, hparts, _⟩ := createChallenge_ok_inv h
  obtain ⟨w1, w2, w3, w4, w5⟩ := hwf
  have hwlnd : wl.Nodup :=
    buildWhitelist_nodup sender aa [sender] wl hwl (List.nodup_singleton sender)
  have hlen1 : s1.challenges.length = s.challenges.length + 1 := by
    rw [hch]
    simp
  refine ⟨?_, ?_, ?_, ?_, ?_⟩
  · intro cid hlt
    simp only [hal]
    by_cases hc : cid = s.challenges.length
    · rw [if_pos hc]
      exact hwlnd
    · rw [if_neg hc]
      apply w1
      rw [hlen1] at hlt
      omega
  · intro cid a hmem
    rw [hparts]
    by_cases hc : cid = s.challenges.length
    · subst hc
      rw [(w4 s.challenges.length le_rfl).2 a]
      rfl
    · simp only [hal] at hmem
      rw [if_neg hc] at hmem
      exact w2 cid a hmem
  · intro cid a hj
    rw [hparts] at hj ⊢
    exact w3 cid a hj
  · intro cid hge
    rw [hlen1] at hge
    have hne : cid ≠ s.challenges.length := by omega
    refine ⟨?_, ?_⟩
    · simp only [hal]
      rw [if_neg hne]
      exact (w4 cid (by omega)).1
    · intro a
      rw [hparts]
      exact (w4 cid (by omega)).2 a
  · intro cid c' hget
    rw [hch] at hget
    by_cases hc : cid = s.challenges.length
    · subst hc
      rw [List.getElem?_concat_length] at hget
      injection hget with hc'
      subst hc'
      rw [if_neg (by simp)]
      unfold stakeSum
      simp only [hparts, hal, if_true]
      symm
      apply List.sum_eq_zero
      intro x hx
      simp only [List.mem_map] at hx
      obtain ⟨a, _, hxa⟩ := hx
      rw [← hxa, (w4 s.challenges.length le_rfl).2 a]
      rfl
    · have hlt : cid < s.challenges.length := by
        have := (List.getElem?_eq_some_iff.mp hget).1
        simp at this
        omega
      rw [List.getElem?_append_left hlt] at hget
      have hss : stakeSum s1 cid = stakeSum s cid := by
        unfold stakeSum
        simp only [hal, hparts]
        rw [if_neg hc]
      rw [hss]
      exact w5 cid c' hget

lemma wf_join {s : ContractState} {sender now value cid : Nat} {uid : String}
    {s1 : ContractState} (hwf : Wf s)
    (h : joinChallenge s sender now value cid uid = .ok s1) : Wf s1 := by
  obtain ⟨c, hget, hwl, heff, _, _, hjoined, _, _, hch, hparts, hal, _⟩ :=
    joinChallenge_ok_inv h
  obtain ⟨w1, w2, w3, w4, w5⟩ := hwf
  have hlt : cid < s.challenges.length := (List.getElem?_eq_some_iff.mp hget).1
  have hmem : sender ∈ s.allowed cid := by
    simp only [isAllowedParticipant, List.contains, List.elem_eq_mem,
      decide_eq_true_eq] at hwl
    exact hwl
  have hstate : c.state ≠ ChallengeState.COMPLETED := by
    intro hcs
    rw [effectiveState_completed hcs] at heff
    exact ChallengeState.noConfusion heff
  have hlen1 : s1.challenges.length = s.challenges.length := by
    rw [hch]
    simp
  have hps : ∀ cid' a, cid' ≠ cid → s1.participants cid' a = s.participants cid' a := by
    intro cid' a hne
    rw [hparts]
    exact updateParticipant_other _ _ _ _ hne
  refine ⟨?_, ?_, ?_, ?_, ?_⟩
  · intro cid' hlt'
    rw [hal]
    exact w1 cid' (by rwa [hlen1] at hlt')
  · intro cid' a hmem'
    rw [hal] at hmem'
    by_cases hc : cid' = cid
    · subst hc
      rw [hparts, updateParticipant_same]
      have ha : a ≠ sender := fun hh => hmem' (hh ▸ hmem)
      rw [if_neg ha]
      exact w2 cid' a hmem'
    · rw [hps cid' a hc]
      exact w2 cid' a hmem'
  · intro cid' a hj
    by_cases hc : cid' = cid
    · subst hc
      rw [hparts, updateParticipant_same] at hj ⊢
      by_cases ha : a = sender
      · rw [if_pos ha] at hj
        simp at hj
      · rw [if_neg ha] at hj ⊢
        exact w3 cid' a hj
    · rw [hps cid' a hc] at hj ⊢
      exact w3 cid' a hj
  · intro cid' hge
    rw [hlen1] at hge
    have hne : cid' ≠ cid := by omega
    refine ⟨?_, ?_⟩
    · rw [hal]
      exact (w4 cid' hge).1
    · intro a
      rw [hps cid' a hne]
      exact (w4 cid' hge).2 a
  · intro cid' c'' hget''
    rw [hch] at hget''
    by_cases hc : cid' = cid
    · subst hc
      rw [List.getElem?_set_self hlt] at hget''
      injection hget'' with hc''
      subst hc''
      show c.totalStaked + value =
        if c.state = ChallengeState.COMPLETED then 0 else stakeSum s1 cid'
      rw [if_neg hstate]
      have hold : c.totalStaked = stakeSum s cid' := by
        have := w5 cid' c hget
        rwa [if_neg hstate] at this
      have hzero : (s.participants cid' sender).stake = 0 := w3 cid' sender hjoined
      have hkey : ((s.allowed cid').map
            (fun x => if x = sender then value
                      else (s.participants cid' x).stake)).sum +
          (s.participants cid' sender).stake =
          ((s.allowed cid').map (fun a => (s.participants cid' a).stake)).sum + value :=
        sum_map_update (w1 cid' hlt) hmem
          (fun a => (s.participants cid' a).stake) value
      have hss : stakeSum s1 cid' =
          ((s.allowed cid').map
            (fun x => if x = sender then value
                      else (s.participants cid' x).stake)).sum := by
        unfold stakeSum
        rw [hal]
        congr 1
        apply List.map_congr_left
        intro x _
        rw [hparts, updateParticipant_same, apply_ite Participant.stake]
      unfold stakeSum at hold
      rw [hss]
      omega
    · rw [List.getElem?_set_ne (fun hh => hc hh.symm)] at hget''
      have hss : stakeSum s1 cid' = stakeSum s cid' := by
        unfold stakeSum
        rw [hal]
        congr 1
        apply List.map_congr_left
        intro x _
        rw [hps cid' x hc]
      rw [hss]
      exact w5 cid' c'' hget''

lemma wf_claim {s : ContractState} {sender now cid : Nat} {winner : Address}
    {dataHash timestamp : Nat} {sig : Sig} {s1 : ContractState}
    {trs : List (Address × Nat)} (hwf : Wf s)
    (h : claimPrizeWithSignature s sender now cid winner dataHash timestamp sig =
          .ok (s1, trs)) : Wf s1 := by
  obtain ⟨c, hget, _, _, _, _, _, _, hch, hparts, hal, _, _⟩ :=
    claimPrizeWithSignature_ok_inv h
  obtain ⟨w1, w2, w3, w4, w5⟩ := hwf
  have hlt : cid < s.challenges.length := (List.getElem?_eq_some_iff.mp hget).1
  have hlen1 : s1.challenges.length = s.challenges.length := by
    rw [hch]
    simp
  have hss : ∀ cid', stakeSum s1 cid' = stakeSum s cid' := by
    intro cid'
    unfold stakeSum
    rw [hal, hparts]
  refine ⟨?_, ?_, ?_, ?_, ?_⟩
  · intro cid' hlt'
    rw [hal]
    exact w1 cid' (by rwa [hlen1] at hlt')
  · intro cid' a hmem'
    rw [hal] at hmem'
    rw [hparts]
    exact w2 cid' a hmem'
  · intro cid' a hj
    rw [hparts] at hj ⊢
    exact w3 cid' a hj
  · intro cid' hge
    rw [hlen1] at hge
    exact ⟨by rw [hal]; exact (w4 cid' hge).1,
           fun a => by rw [hparts]; exact (w4 cid' hge).2 a⟩
  · intro cid' c'' hget''
    rw [hch] at hget''
    by_cases hc : cid' = cid
    · subst hc
      rw [List.getElem?_set_self hlt] at hget''
      injection hget'' with hc''
      subst hc''
      show (0 : Nat) = if ChallengeState.COMPLETED = ChallengeState.COMPLETED
        then 0 else stakeSum s1 cid'
      rw [if_pos rfl]
    · rw [List.getElem?_set_ne (fun hh => hc hh.symm)] at hget''
      rw [hss cid']
      exact w5 cid' c'' hget''

lemma wf_cancel {s : ContractState} {sender now cid : Nat} {sigs : List Sig}
    {s1 : ContractState} (hwf : Wf s)
    (h : cancelChallengeByConsent s sender now cid sigs = .ok s1) : Wf s1 := by
  obtain ⟨c, hget, heff, _, _, hch, hparts, hal, _⟩ :=
    cancelChallengeByConsent_ok_inv h
  obtain ⟨w1, w2, w3, w4, w5⟩ := hwf
  have hlt : cid < s.challenges.length := (List.getElem?_eq_some_iff.mp hget).1
  have hstate : c.state ≠ ChallengeState.COMPLETED := by
    intro hcs
    rw [effectiveState_completed hcs] at heff
    rcases heff with h' | h' | h' <;> exact ChallengeState.noConfusion h'
  have hlen1 : s1.challenges.length = s.challenges.length := by
    rw [hch]
    simp
  have hss : ∀ cid', stakeSum s1 cid' = stakeSum s cid' := by
    intro cid'
    unfold stakeSum
    rw [hal, hparts]
  refine ⟨?_, ?_, ?_, ?_, ?_⟩
  · intro cid' hlt'
    rw [hal]
    exact w1 cid' (by rwa [hlen1] at hlt')
  · intro cid' a hmem'
    rw [hal] at hmem'
    rw [hparts]
    exact w2 cid' a hmem'
  · intro cid' a hj
    rw [hparts] at hj ⊢
    exact w3 cid' a hj
  · intro cid' hge
    rw [hlen1] at hge
    exact ⟨by rw [hal]; exact (w4 cid' hge).1,
           fun a => by rw [hparts]; exact (w4 cid' hge).2 a⟩
  · intro cid' c'' hget''
    rw [hch] at hget''
    by_cases hc : cid' = cid
    · subst hc
      rw [List.getElem?_set_self hlt] at hget''
      injection hget'' with hc''
      subst hc''
      show c.totalStaked = if ChallengeState.CANCELLED = ChallengeState.COMPLETED
        then 0 else stakeSum s1 cid'
      rw [if_neg (by decide), hss cid']
      have := w5 cid' c hget
      rwa [if_neg hstate] at this
    · rw [List.getElem?_set_ne (fun hh => hc hh.symm)] at hget''
      rw [hss cid']
      exact w5 cid' c'' hget''

lemma wf_withdraw {s : ContractState} {sender now cid : Nat}
    {s1 : ContractState} {trs : List (Address × Nat)} (hwf : Wf s)
    (h : withdrawFromCancelled s sender now cid = .ok (s1, trs)) : Wf s1 := by
  obtain ⟨c, hget, heff, hpos, _, hch, hparts, hal, _, _⟩ :=
    withdrawFromCancelled_ok_inv h
  obtain ⟨w1, w2, w3, w4, w5⟩ := hwf
  have hlt : cid < s.challenges.length := (List.getElem?_eq_some_iff.mp hget).1
  have hstate : c.state ≠ ChallengeState.COMPLETED := by
    intro hcs
    rw [effectiveState_completed hcs] at heff
    exact ChallengeState.noConfusion heff
  have hmem : sender ∈ s.allowed cid := by
    by_contra hnm
    rw [w2 cid sender hnm] at hpos
    exact Nat.lt_irrefl 0 hpos
  have hlen1 : s1.challenges.length = s.challenges.length := by
    rw [hch]
    simp
  have hps : ∀ cid' a, cid' ≠ cid → s1.participants cid' a = s.participants cid' a := by
    intro cid' a hne
    rw [hparts]
    exact updateParticipant_other _ _ _ _ hne
  refine ⟨?_, ?_, ?_, ?_, ?_⟩
  · intro cid' hlt'
    rw [hal]
    exact w1 cid' (by rwa [hlen1] at hlt')
  · intro cid' a hmem'
    rw [hal] at hmem'
    by_cases hc : cid' = cid
    · subst hc
      rw [hparts, updateParticipant_same]
      by_cases ha : a = sender
      · rw [if_pos ha]
      · rw [if_neg ha]
        exact w2 cid' a hmem'
    · rw [hps cid' a hc]
      exact w2 cid' a hmem'
  · intro cid' a hj
    by_cases hc : cid' = cid
    · subst hc
      rw [hparts, updateParticipant_same] at hj ⊢
      by_cases ha : a = sender
      · rw [if_pos ha]
      · rw [if_neg ha] at hj ⊢
        exact w3 cid' a hj
    · rw [hps cid' a hc] at hj ⊢
      exact w3 cid' a hj
  · intro cid' hge
    rw [hlen1] at hge
    have hne : cid' ≠ cid := by omega
    refine ⟨?_, ?_⟩
    · rw [hal]
      exact (w4 cid' hge).1
    · intro a
      rw [hps cid' a hne]
      exact (w4 cid' hge).2 a
  · intro cid' c'' hget''
    rw [hch] at hget''
    by_cases hc : cid' = cid
    · subst hc
      rw [List.getElem?_set_self hlt] at hget''
      injection hget'' with hc''
      subst hc''
      show c.totalStaked - (s.participants cid' sender).stake =
        if ChallengeState.CANCELLED = ChallengeState.COMPLETED
        then 0 else stakeSum s1 cid'
      rw [if_neg (by decide)]
      have hold : c.totalStaked = stakeSum s cid' := by
        have := w5 cid' c hget
        rwa [if_neg hstate] at this
      have hkey : ((s.allowed cid').map
            (fun x => if x = sender then 0
                      else (s.participants cid' x).stake)).sum +
          (s.participants cid' sender).stake =
          ((s.allowed cid').map (fun a => (s.participants cid' a).stake)).sum + 0 :=
        sum_map_update (w1 cid' hlt) hmem
          (fun a => (s.participants cid' a).stake) 0
      have hss : stakeSum s1 cid' =
          ((s.allowed cid').map
            (fun x => if x = sender then 0
                      else (s.participants cid' x).stake)).sum := by
        unfold stakeSum
        rw [hal]
        congr 1
        apply List.map_congr_left
        intro x _
        rw [hparts, updateParticipant_same, apply_ite Participant.stake]
      unfold stakeSum at hold
      rw [hss]
      omega
    · rw [List.getElem?_set_ne (fun hh => hc hh.symm)] at hget''
      have hss : stakeSum s1 cid' = stakeSum s cid' := by
        unfold stakeSum
        rw [hal]
        congr 1
        apply List.map_congr_left
        intro x _
        rw [hps cid' x hc]
      rw [hss]
      exact w5 cid' c'' hget''

lemma wf_emergency {s : ContractState} {sender now cid : Nat}
    {s1 : ContractState} {trs : List (Address × Nat)} (hwf : Wf s)
    (h : emergencyWithdraw s sender now cid = .ok (s1, trs)) : Wf s1 := by
  obtain ⟨c, hget, heff, _, hpos, _, hch, hparts, hal, _, _⟩ :=
    emergencyWithdraw_ok_inv h
  obtain ⟨w1, w2, w3, w4, w5⟩ := hwf
  have hlt : cid < s.challenges.length := (List.getElem?_eq_some_iff.mp hget).1
  have hstate : c.state ≠ ChallengeState.COMPLETED := by
    intro hcs
    exact heff.2.1 (effectiveState_completed hcs _ _)
  have hmem : sender ∈ s.allowed cid := by
    by_contra hnm
    rw [w2 cid sender hnm] at hpos
    exact Nat.lt_irrefl 0 hpos
  have hlen1 : s1.challenges.length = s.challenges.length := by
    rw [hch]
    simp
  have hps : ∀ cid' a, cid' ≠ cid → s1.participants cid' a = s.participants cid' a := by
    intro cid' a hne
    rw [hparts]
    exact updateParticipant_other _ _ _ _ hne
  refine ⟨?_, ?_, ?_, ?_, ?_⟩
  · intro cid' hlt'
    rw [hal]
    exact w1 cid' (by rwa [hlen1] at hlt')
  · intro cid' a hmem'
    rw [hal] at hmem'
    by_cases hc : cid' = cid
    · subst hc
      rw [hparts, updateParticipant_same]
      by_cases ha : a = sender
      · rw [if_pos ha]
      · rw [if_neg ha]
        exact w2 cid' a hmem'
    · rw [hps cid' a hc]
      exact w2 cid' a hmem'
  · intro cid' a hj
    by_cases hc : cid' = cid
    · subst hc
      rw [hparts, updateParticipant_same] at hj ⊢
      by_cases ha : a = sender
      · rw [if_pos ha]
      · rw [if_neg ha] at hj ⊢
        exact w3 cid' a hj
    · rw [hps cid' a hc] at hj ⊢
      exact w3 cid' a hj
  · intro cid' hge
    rw [hlen1] at hge
    have hne : cid' ≠ cid := by omega
    refine ⟨?_, ?_⟩
    · rw [hal]
      exact (w4 cid' hge).1
    · intro a
      rw [hps cid' a hne]
      exact (w4 cid' hge).2 a
  · intro cid' c'' hget''
    rw [hch] at hget''
    by_cases hc : cid' = cid
    · subst hc
      rw [List.getElem?_set_self hlt] at hget''
      injection hget'' with hc''
      subst hc''
      show c.totalStaked - (s.participants cid' sender).stake =
        if c.state = ChallengeState.COMPLETED then 0 else stakeSum s1 cid'
      rw [if_neg hstate]
      have hold : c.totalStaked = stakeSum s cid' := by
        have := w5 cid' c hget
        rwa [if_neg hstate] at this
      have hkey : ((s.allowed cid').map
            (fun x => if x = sender then 0
                      else (s.participants cid' x).stake)).sum +
          (s.participants cid' sender).stake =
          ((s.allowed cid').map (fun a => (s.participants cid' a).stake)).sum + 0 :=
        sum_map_update (w1 cid' hlt) hmem
          (fun a => (s.participants cid' a).stake) 0
      have hss : stakeSum s1 cid' =
          ((s.allowed cid').map
            (fun x => if x = sender then 0
                      else (s.participants cid' x).stake)).sum := by
        unfold stakeSum
        rw [hal]
        congr 1
        apply List.map_congr_left
        intro x _
        rw [hparts, updateParticipant_same, apply_ite Participant.stake]
      unfold stakeSum at hold
      rw [hss]
      omega
    · rw [List.getElem?_set_ne (fun hh => hc hh.symm)] at hget''
      have hss : stakeSum s1 cid' = stakeSum s cid' := by
        unfold stakeSum
        rw [hal]
        congr 1
        apply List.map_congr_left
        intro x _
        rw [hps cid' x hc]
      rw [hss]
      exact w5 cid' c'' hget''

/-- Every single call preserves the bookkeeping invariant (a reverting
call leaves the storage unchanged). -/
lemma wf_execOp {s : ContractState} (hwf : Wf s) (op : Op) : Wf (execOp s op) := by
  cases op with
  | create sender now st et sa aa =>
    simp only [execOp]
    cases hc : createChallenge s sender now st et sa aa with
    | error e => exact hwf
    | ok p =>
      obtain ⟨s1, rid⟩ := p
      exact wf_create hwf hc
  | join sender now value cid uid =>
    simp only [execOp]
    cases hc : joinChallenge s sender now value cid uid with
    | error e => exact hwf
    | ok s1 => exact wf_join hwf hc
  | claim sender now cid w dh ts sig =>
    simp only [execOp]
    cases hc : claimPrizeWithSignature s sender now cid w dh ts sig with
    | error e => exact hwf
    | ok p =>
      obtain ⟨s1, trs⟩ := p
      exact wf_claim hwf hc
  | cancel sender now cid sigs =>
    simp only [execOp]
    cases hc : cancelChallengeByConsent s sender now cid sigs with
    | error e => exact hwf
    | ok s1 => exact wf_cancel hwf hc
  | withdrawCancelled sender now cid =>
    simp only [execOp]
    cases hc : withdrawFromCancelled s sender now cid with
    | error e => exact hwf
    | ok p =>
      obtain ⟨s1, trs⟩ := p
      exact wf_withdraw hwf hc
  | emergency sender now cid =>
    simp only [execOp]
    cases hc : emergencyWithdraw s sender now cid with
    | error e => exact hwf
    | ok p =>
      obtain ⟨s1, trs⟩ := p
      exact wf_emergency hwf hc

/-- Any sequence of calls preserves the bookkeeping invariant. -/
lemma wf_execOps {s : ContractState} (hwf : Wf s) :
    ∀ ops : List Op, Wf (execOps s ops) := by
  intro ops
  induction ops generalizing s with
  | nil => exact hwf
  | cons op rest ih => exact ih (wf_execOp hwf op)

/-- C1: for every challenge and after every sequence of the contract's
operations from a fresh deployment, `totalStaked` equals the sum of
the live participant stakes of the challenge (`liveStakeSum`: stake
fields are live until withdrawn or, on prize payout, the challenge is
COMPLETED and no stake is live — the stake fields themselves are then
stale audit data, see the C7 theorems). -/
theorem totalStaked_eq_live_stakes (oracle : Address) (ops : List Op)
    (cid : Nat) (c : Challenge)
    (h : (execOps (initState oracle) ops).challenges[cid]? = some c) :
    c.totalStaked = liveStakeSum (execOps (initState oracle) ops) cid := by
  have hwf := wf_execOps (wf_initState oracle) ops
  have h5 := hwf.2.2.2.2 cid c h
  unfold liveStakeSum
  rw [h]
  show c.totalStaked = if c.state = ChallengeState.COMPLETED
    then 0 else stakeSum (execOps (initState oracle) ops) cid
  by_cases hc : c.state = ChallengeState.COMPLETED
  · rwa [if_pos hc] at h5 ⊢
  · rwa [if_neg hc] at h5 ⊢

/-- Witness for C1: in the demo run — create, two joins, prize claim —
the invariant holds with `totalStaked = 10` before the claim and
`totalStaked = 0 = liveStakeSum` afterwards (the pool was paid out). -/
theorem totalStaked_eq_live_stakes_witness :
    (∃ c, demoState.challenges[0]? = some c ∧ c.totalStaked = 10 ∧
      c.totalStaked = liveStakeSum demoState 0) ∧
    (∃ c, demoClaimed.challenges[0]? = some c ∧ c.totalStaked = 0 ∧
      c.totalStaked = liveStakeSum demoClaimed 0) := by
  constructor
  · exact ⟨_, rfl, by decide,
      totalStaked_eq_live_stakes 9 demoOps 0 _ rfl⟩
  · exact ⟨_, rfl, by decide,
      totalStaked_eq_live_stakes 9 (demoOps ++ [Op.claim 1 250 0 1 7 250 demoSig])
        0 _ rfl⟩

/-! ## Claim C9: the oracle's finalization decision -/

lemma foldl_pick_mem (r : MileageRow) (rest : List MileageRow) :
    rest.foldl (fun best x => if best.totalMiles < x.totalMiles then x else best) r ∈
      r :: rest := by
  induction rest generalizing r with
  | nil => simp
  | cons y t ih =>
    simp only [List.foldl_cons]
    by_cases hxy : r.totalMiles < y.totalMiles
    · rw [if_pos hxy]
      rcases List.mem_cons.mp (ih y) with h | h
      · rw [h]
        exact List.mem_cons_of_mem _ (List.mem_cons_self _ _)
      · exact List.mem_cons_of_mem _ (List.mem_cons_of_mem _ h)
    · rw [if_neg hxy]
      rcases List.mem_cons.mp (ih r) with h | h
      · rw [h]
        exact List.mem_cons_self _ _
      · exact List.mem_cons_of_mem _ (List.mem_cons_of_mem _ h)

lemma foldl_pick_max (r : MileageRow) (rest : List MileageRow) :
    ∀ x ∈ r :: rest, x.totalMiles ≤
      (rest.foldl (fun best x => if best.totalMiles < x.totalMiles then x else best)
        r).totalMiles := by
  induction rest generalizing r with
  | nil =>
    intro x hx
    rcases List.mem_cons.mp hx with rfl | h
    · exact le_refl _
    · cases h
  | cons y t ih =>
    intro x hx
    simp only [List.foldl_cons]
    by_cases hxy : r.totalMiles < y.totalMiles
    · rw [if_pos hxy]
      rcases List.mem_cons.mp hx with rfl | h
      · exact le_trans (le_of_lt hxy) (ih y y (List.mem_cons_self _ _))
      · exact ih y x h
    · rw [if_neg hxy]
      rcases List.mem_cons.mp hx with rfl | h
      · exact ih x x (List.mem_cons_self _ _)
      · rcases List.mem_cons.mp h with rfl | h'
        · exact le_trans (le_of_not_lt hxy) (ih r r (List.mem_cons_self _ _))
        · exact ih r x (List.mem_cons_of_mem _ h')

lemma selectWinnerRow_some {rows : List MileageRow} {w : MileageRow}
    (h : selectWinnerRow rows = some w) :
    w ∈ rows ∧ ∀ m ∈ rows, m.totalMiles ≤ w.totalMiles := by
  cases rows with
  | nil => simp [selectWinnerRow] at h
  | cons r rest =>
    unfold selectWinnerRow at h
    injection h with h
    rw [← h]
    exact ⟨foldl_pick_mem r rest, foldl_pick_max r rest⟩

lemma selectWinnerRow_eq_none {rows : List MileageRow} :
    selectWinnerRow rows = none ↔ rows = [] := by
  cases rows <;> simp [selectWinnerRow]

lemma mem_joinedRows_implies {parts : List OracleParticipant}
    {mileage : List MileageRow} {w : MileageRow} (h : w ∈ joinedRows parts mileage) :
    ∃ p ∈ parts, p.walletAddress = w.walletAddress := by
  unfold joinedRows at h
  rw [List.mem_filter] at h
  obtain ⟨_, hpred⟩ := h
  rw [List.any_eq_true] at hpred
  obtain ⟨p, hp, hbeq⟩ := hpred
  exact ⟨p, hp, by simpa using hbeq⟩

/-- Counterexample to C9: the challenge ended and the 7-day grace
period has expired (so the claim's condition for signing holds), yet
with no mileage snapshot recorded the endpoint returns the
`noMileageData` refusal instead of a signed attestation. -/
theorem oracle_refuses_without_mileage_data :
    GRACE_PERIOD ≤ 604800 - 0 ∧
    oracleFinalization 0 604800 [{ walletAddress := 1, confirmed := true }] [] =
      FinalizationResult.noMileageData := by
  exact ⟨by decide, by decide⟩

/-- C9 as amended: the endpoint returns a signed attestation iff the
challenge has ended, the grace period has expired or every recorded
participant confirmed, at least one participant is recorded, and at
least one mileage snapshot of a joined participant exists; otherwise
it returns a structured refusal.  When it signs, the attested winner
is a joined participant whose recorded mileage is maximal among the
joined snapshots (ties broken by fetch order), the reported reason is
the all-confirmed flag, and the signing timestamp is the current
time. -/
theorem oracle_finalization_characterization (endTime now : Nat)
    (parts : List OracleParticipant) (mileage : List MileageRow) :
    ((∃ w b t, oracleFinalization endTime now parts mileage =
        FinalizationResult.signed w b t) ↔
      (endTime ≤ now ∧
       (GRACE_PERIOD ≤ now - endTime ∨ confirmedCount parts = parts.length) ∧
       parts.length ≠ 0 ∧ joinedRows parts mileage ≠ [])) ∧
    (∀ w b t, oracleFinalization endTime now parts mileage =
        FinalizationResult.signed w b t →
      w ∈ joinedRows parts mileage ∧
      (∃ p ∈ parts, p.walletAddress = w.walletAddress) ∧
      (∀ m ∈ joinedRows parts mileage, m.totalMiles ≤ w.totalMiles) ∧
      b = decide (confirmedCount parts = parts.length) ∧ t = now) := by
  unfold oracleFinalization
  by_cases h1 : now < endTime
  · rw [if_pos h1]
    refine ⟨⟨?_, ?_⟩, ?_⟩
    · rintro ⟨w, b, t, hw⟩
      simp at hw
    · rintro ⟨h2, _, _, _⟩
      omega
    · intro w b t hw
      simp at hw
  · rw [if_neg h1]
    by_cases h2 : parts.length = 0
    · rw [if_pos h2]
      refine ⟨⟨?_, ?_⟩, ?_⟩
      · rintro ⟨w, b, t, hw⟩
        simp at hw
      · rintro ⟨_, _, h2', _⟩
        exact absurd h2 h2'
      · intro w b t hw
        simp at hw
    · rw [if_neg h2]
      dsimp only
      by_cases h3 : ¬ (now - endTime ≥ GRACE_PERIOD ∨
          confirmedCount parts = parts.length)
      · rw [if_pos h3]
        refine ⟨⟨?_, ?_⟩, ?_⟩
        · rintro ⟨w, b, t, hw⟩
          simp at hw
        · rintro ⟨_, h3', _, _⟩
          exact absurd h3' h3
        · intro w b t hw
          simp at hw
      · rw [if_neg h3]
        cases hsel : selectWinnerRow (joinedRows parts mileage) with
        | none =>
          refine ⟨⟨?_, ?_⟩, ?_⟩
          · rintro ⟨w, b, t, hw⟩
            simp at hw
          · rintro ⟨_, _, _, hne⟩
            exact absurd (selectWinnerRow_eq_none.mp hsel) hne
          · intro w b t hw
            simp at hw
        | some w0 =>
          obtain ⟨hmem, hmax⟩ := selectWinnerRow_some hsel
          refine ⟨⟨?_, ?_⟩, ?_⟩
          · intro _
            refine ⟨not_lt.mp h1, not_not.mp h3, h2, ?_⟩
            intro hnil
            rw [selectWinnerRow_eq_none.mpr hnil] at hsel
            exact Option.noConfusion hsel
          · intro _
            exact ⟨w0, decide (confirmedCount parts = parts.length), now, rfl⟩
          · intro w b t hw
            rw [FinalizationResult.signed.injEq] at hw
            obtain ⟨hw0, hb, ht⟩ := hw
            subst hw0 hb ht
            exact ⟨hmem, mem_joinedRows_implies hmem, hmax, rfl, rfl⟩

/-- Witness for the amended C9: with the demo oracle data (both
participants confirmed, account 2 at 7 miles) the endpoint signs at
the challenge's end, and every joined snapshot has at most the
winner's 7 miles. -/
theorem oracle_finalization_characterization_witness :
    (∃ w b t, oracleFinalization 200 200 demoOracleParts demoMileage =
      FinalizationResult.signed w b t) ∧
    (∀ m ∈ joinedRows demoOracleParts demoMileage, m.totalMiles ≤ (7 : ℚ)) := by
  constructor
  · exact (oracle_finalization_characterization 200 200 demoOracleParts
      demoMileage).1.mpr ⟨by decide, Or.inr (by decide), by decide, by decide⟩
  · intro m hm
    have h := (oracle_finalization_characterization 200 200 demoOracleParts
      demoMileage).2 { walletAddress := 2, stravaUserId := "strava-2", totalMiles := 7 }
      true 200 rfl
    exact h.2.2.1 m hm

end StravaChallenge
